/-
Verification of the aebn-vod-downloader segmented download engine.

Shallow embedding of the Python sources under src/aebn_dl/ into Lean:
pure logic is translated to computable functions, network and filesystem
effects become explicit oracle parameters (url -> response, path -> bool),
and Python exceptions become Except values.  Bytes are modelled as List Nat,
HTTP responses as a status code plus content.
-/
import Mathlib

deriving instance DecidableEq for Except

namespace AebnDl

/-- An HTTP response as observed through curl_cffi: a status code and body bytes. -/
structure HttpResponse where
  status : Nat
  content : List Nat
  deriving Repr, DecidableEq

/-- `response.ok` in the requests API used by the source: true iff the status
code is below 400 (raise_for_status raises exactly for 400 <= code < 600). -/
def HttpResponse.ok (r : HttpResponse) : Bool :=
  r.status < 400

/-- Embeds the retry loop of CustomSession.custom_request
(src/aebn_dl/custom_session.py lines 20-33).  `oracle i` is the outcome of the
i-th underlying `super().request` call: `some r` a response, `none` a raised
transport error (curl_cffi RequestsError).  `attempt` mirrors the Python local
of the same name (number of failures so far).  Returns the final outcome
(`none` models the raised NetworkError), the number of underlying attempts
performed from this point, and the number of backoff sleeps performed. -/
def custom_request_aux (oracle : Nat → Option HttpResponse) (maxRetries : Nat)
    (attempt : Nat) : Option HttpResponse × Nat × Nat :=
  match oracle attempt with
  | some r => (some r, 1, 0)
  | none =>
      if attempt + 1 ≥ maxRetries then (none, 1, 0)
      else
        let rest := custom_request_aux oracle maxRetries (attempt + 1)
        (rest.1, rest.2.1 + 1, rest.2.2 + 1)
termination_by maxRetries - attempt
decreasing_by omega

/-- CustomSession.custom_request: run the retry loop starting with zero failures. -/
def custom_request (oracle : Nat → Option HttpResponse) (maxRetries : Nat) :
    Option HttpResponse × Nat × Nat :=
  custom_request_aux oracle maxRetries 0

/-- The deterministic part of the backoff delay before retry number `attempt`
(src/aebn_dl/custom_session.py line 31): initial_retry_delay * backoff_factor ^ (attempt - 1). -/
def backoff_delay (initialRetryDelay backoffFactor attempt : Nat) : Nat :=
  initialRetryDelay * backoffFactor ^ (attempt - 1)

/-- The video SegmentTemplate attributes read from the manifest XML
(src/aebn_dl/manifest_parser.py lines 53-54), as exact rationals. -/
structure SegmentTemplate where
  duration : ℚ
  timescale : ℚ

/-- Embeds the `self.segment_duration = duration / timescale` computation of
Manifest._total_number_of_data_segments_calc (src/aebn_dl/manifest_parser.py line 56). -/
def segment_duration_calc (tmpl : SegmentTemplate) : ℚ :=
  tmpl.duration / tmpl.timescale

/-- Embeds Manifest._total_number_of_data_segments_calc
(src/aebn_dl/manifest_parser.py lines 50-60): total duration divided by the
segment duration, rounded up with math.ceil. -/
def total_number_of_data_segments_calc (totalDurationSeconds : ℚ)
    (tmpl : SegmentTemplate) : ℤ :=
  ⌈totalDurationSeconds / segment_duration_calc tmpl⌉

/-- The spec's own formula for the segment count (spec section 4.1):
ceil(total_duration_seconds / (template.duration / template.timescale)). -/
def spec_total_segments (totalDurationSeconds duration timescale : ℚ) : ℤ :=
  ⌈totalDurationSeconds / (duration / timescale)⌉

/-- Ordering used by Manifest._parse_and_sort_video_streams
(src/aebn_dl/manifest_parser.py line 81): compare (stream_id, height) pairs
by height. -/
def heightLe (a b : String × Int) : Prop :=
  a.2 ≤ b.2

instance : DecidableRel heightLe :=
  fun a b => inferInstanceAs (Decidable (a.2 ≤ b.2))

instance : IsTotal (String × Int) heightLe :=
  ⟨fun a b => le_total a.2 b.2⟩

instance : IsTrans (String × Int) heightLe :=
  ⟨fun _ _ _ h1 h2 => le_trans h1 h2⟩

/-- Embeds Manifest._parse_and_sort_video_streams
(src/aebn_dl/manifest_parser.py lines 78-82): the (id, height) pairs sorted
ascending by height (Python sorted is a stable sort; a stable insertion sort
models it). -/
def parse_and_sort_video_streams (streams : List (String × Int)) : List (String × Int) :=
  List.insertionSort heightLe streams

/-- Failure modes of the video-selection code in Manifest.parse_content. -/
inductive SelectError where
  /-- Python IndexError: `video_streams[0]` or `video_streams[-1]` on an empty list. -/
  | indexError
  /-- The RuntimeError "Target video resolution height ... not found" (line 46). -/
  | resolutionNotFound
  /-- Python TypeError: tuple-unpacking the None returned by `next(..., None)` (line 47). -/
  | typeError
  deriving Repr, DecidableEq

/-- Embeds the video-stream selection of Manifest.parse_content
(src/aebn_dl/manifest_parser.py lines 32-48), operating on the
height-ascending `video_streams` list.  `targetHeight = some 0` is the
"lowest" policy, `none` the "highest" policy, any other value the exact(h)
policy (Python truthiness: a nonzero int is truthy).  `wouldBeId` is the
first exact height match; the Python guard `if not video_stream_id` is falsy
for both None and the empty string. -/
def select_video_stream (videoStreams : List (String × Int)) (targetHeight : Option Int)
    (forceResolution : Bool) : Except SelectError (String × Int) :=
  match targetHeight with
  | none =>
      match videoStreams.getLast? with
      | some p => .ok p
      | none => .error .indexError
  | some h =>
      if h = 0 then
        match videoStreams.head? with
        | some p => .ok p
        | none => .error .indexError
      else
        let wouldBeId := (videoStreams.find? (fun p => p.2 == h)).map Prod.fst
        if (wouldBeId == none || wouldBeId == some "") && forceResolution then
          .error .resolutionNotFound
        else
          match videoStreams.reverse.find? (fun p => decide (p.2 ≤ h)) with
          | some p => .ok p
          | none => .error .typeError

/-- URL of an audio initialization segment as built by
Manifest._find_best_good_audio_stream (src/aebn_dl/manifest_parser.py lines 65-66). -/
def audio_init_segment_url (baseStreamUrl streamId : String) : String :=
  baseStreamUrl ++ "/ai_" ++ streamId ++ ".mp4d"

/-- URL of an audio data segment as built by
Manifest._find_best_good_audio_stream (src/aebn_dl/manifest_parser.py lines 70-71). -/
def audio_data_segment_url (baseStreamUrl streamId : String) (segmentNumber : Nat) : String :=
  baseStreamUrl ++ "/a_" ++ streamId ++ "_" ++ toString segmentNumber ++ ".mp4d"

/-- The decode-validity probe performed for one audio candidate by
Manifest._find_best_good_audio_stream (src/aebn_dl/manifest_parser.py lines 65-73):
download the init segment and the data segment at index total/2 (Python
int(total/2) truncates, i.e. floor) and test the concatenation with
utils.is_valid_media.  `net` maps a URL to the downloaded bytes,
`isValidMedia` is the ffmpeg decode probe. -/
def audio_probe (baseStreamUrl : String) (totalSegments : Nat)
    (net : String → List Nat) (isValidMedia : List Nat → Bool) (streamId : String) : Bool :=
  isValidMedia
    (net (audio_init_segment_url baseStreamUrl streamId) ++
      net (audio_data_segment_url baseStreamUrl streamId (totalSegments / 2)))

/-- The candidate loop of Manifest._find_best_good_audio_stream over an
already-reversed candidate list, instrumented with the running count of
segment downloads issued (each probed candidate costs exactly two GETs). -/
def find_best_good_audio_go (baseStreamUrl : String) (totalSegments : Nat)
    (net : String → List Nat) (isValidMedia : List Nat → Bool) :
    List (String × Int) → Nat → Except String (String × Nat)
  | [], _ => .error "No valid audio stream found"
  | p :: rest, downloads =>
      if audio_probe baseStreamUrl totalSegments net isValidMedia p.1 then
        .ok (p.1, downloads + 2)
      else
        find_best_good_audio_go baseStreamUrl totalSegments net isValidMedia rest (downloads + 2)

/-- Embeds Manifest._find_best_good_audio_stream
(src/aebn_dl/manifest_parser.py lines 62-76): iterate `reversed(video_streams)`
(the height-ascending list reversed, i.e. height-descending), probe each
candidate, return the first valid stream id together with the total number of
probe downloads issued; raise RuntimeError when every candidate fails. -/
def find_best_good_audio_stream (baseStreamUrl : String) (totalSegments : Nat)
    (net : String → List Nat) (isValidMedia : List Nat → Bool)
    (videoStreams : List (String × Int)) : Except String (String × Nat) :=
  find_best_good_audio_go baseStreamUrl totalSegments net isValidMedia videoStreams.reverse 0

/-- The mutable manifest fields read by the segment fetcher
(src/aebn_dl/manifest_parser.py lines 17-19): the base stream URL and the
computed total number of data segments.  Manifest.process_manifest replaces
both. -/
structure ManifestState where
  baseStreamUrl : String
  totalSegments : Nat
  deriving Repr, DecidableEq

/-- The per-downloader context of Downloader._download_segment
(src/aebn_dl/downloader.py lines 379-407): stream identity, working
directory, the overwrite flag, and the effect oracles — `diskHas` models
os.path.exists and `net` models session.get. -/
structure SegCtx where
  mediaType : String
  streamId : String
  workDir : String
  overwrite : Bool
  diskHas : String → Bool
  net : String → HttpResponse

/-- Errors raised by Downloader._download_segment. -/
inductive SegError where
  /-- The Forbidden exception raised on a 403 (line 405). -/
  | forbidden
  /-- The RuntimeError "... Download error! Response Status : ..." (line 407). -/
  | runtimeError (status : Nat)
  deriving Repr, DecidableEq

/-- The observable effects of one Downloader._download_segment call: how many
HTTP GETs were issued, which path (if any) was appended to
stream.downloaded_segments, and which file (if any) was written to disk. -/
structure SegAttempt where
  requests : Nat
  recorded : Option String
  wrote : Option String
  deriving Repr, DecidableEq

/-- Segment name as built by Downloader._download_segment
(src/aebn_dl/downloader.py lines 381-384): `{type}_{id}_{n}` for a data
segment, `{type}i_{id}` for the initialization segment. -/
def segment_file_name (mediaType streamId : String) (segmentNumber : Option Nat) : String :=
  match segmentNumber with
  | some n => mediaType ++ "_" ++ streamId ++ "_" ++ toString n
  | none => mediaType ++ "i_" ++ streamId

/-- Segment request URL (src/aebn_dl/downloader.py line 386). -/
def segment_request_url (ctx : SegCtx) (m : ManifestState) (segmentNumber : Option Nat) : String :=
  m.baseStreamUrl ++ "/" ++ segment_file_name ctx.mediaType ctx.streamId segmentNumber ++ ".mp4d"

/-- On-disk segment path (src/aebn_dl/downloader.py line 387, os.path.join). -/
def segment_disk_path (ctx : SegCtx) (segmentNumber : Option Nat) : String :=
  ctx.workDir ++ "/" ++ segment_file_name ctx.mediaType ctx.streamId segmentNumber ++ ".mp4"

/-- Embeds Downloader._download_segment (src/aebn_dl/downloader.py lines 379-407).
If the file exists and overwrite is not requested, skip the network and record
the path.  Otherwise GET the segment URL: on ok persist and record; on 404 at
exactly the manifest's total segment count skip silently; on 403 raise
Forbidden; otherwise raise RuntimeError. -/
def download_segment (ctx : SegCtx) (m : ManifestState) (segmentNumber : Option Nat) :
    Except SegError SegAttempt :=
  let path := segment_disk_path ctx segmentNumber
  if ctx.diskHas path && !ctx.overwrite then
    .ok ⟨0, some path, none⟩
  else
    let response := ctx.net (segment_request_url ctx m segmentNumber)
    if response.ok then
      .ok ⟨1, some path, some path⟩
    else if response.status == 404 && segmentNumber == some m.totalSegments then
      .ok ⟨1, none, none⟩
    else if response.status == 403 then
      .error .forbidden
    else
      .error (.runtimeError response.status)

/-- The outcome of one `download_task` closure of Downloader._download_stream
(src/aebn_dl/downloader.py lines 356-364): the final result, the number of
manifest refreshes this task performed, and the number of
_download_segment calls it made. -/
structure TaskRun where
  result : Except SegError SegAttempt
  refreshes : Nat
  attempts : Nat
  deriving Repr

/-- Embeds the `download_task` closure (src/aebn_dl/downloader.py lines 356-364)
for one segment index: attempt the download under the current manifest
`mBefore`; on Forbidden, refresh the manifest (modelled by the refreshed state
`mAfter` this task observes after its own process_manifest call) and retry the
same segment once; any exception from the retry propagates. -/
def download_task (ctx : SegCtx) (mBefore mAfter : ManifestState) (segmentNumber : Nat) :
    TaskRun :=
  match download_segment ctx mBefore (some segmentNumber) with
  | .ok r => ⟨.ok r, 0, 1⟩
  | .error .forbidden => ⟨download_segment ctx mAfter (some segmentNumber), 1, 2⟩
  | .error e => ⟨.error e, 0, 1⟩

/-- True iff a task result is the Forbidden exception escaping the task. -/
def is_forbidden_result (r : Except SegError SegAttempt) : Bool :=
  match r with
  | .error .forbidden => true
  | _ => false

/-- True iff an Except value is an error. -/
def is_error_result (r : Except SegError SegAttempt) : Bool :=
  match r with
  | .error _ => true
  | _ => false

/-- The as_completed loop of Downloader._download_stream
(src/aebn_dl/downloader.py lines 369-374) re-raises the first exception of any
task, aborting the whole stream fetch: the fetch is aborted iff some task run
ended in an error. -/
def stream_fetch_aborted (runs : List TaskRun) : Bool :=
  runs.any (fun t => is_error_result t.result)

/-- One admissible execution of the Downloader._download_stream task pool
(src/aebn_dl/downloader.py lines 353-374) in a 403 burst: every task's first
_download_segment attempt completes (concurrently, under the initial manifest)
before any recovery section runs; the recovery sections then run serially
under manifest_lock in task order.  Each task that caught Forbidden refreshes
the manifest — `refreshOracle k` is the manifest produced by the k-th
process_manifest call — and retries its segment.  Input: each segment index
paired with its first-attempt result; `refreshCount` is the number of
refreshes performed so far.  Returns the total refresh count and the final
per-task results. -/
def forbidden_burst_go (ctx : SegCtx) (refreshOracle : Nat → ManifestState) :
    List (Nat × Except SegError SegAttempt) → Nat →
      Nat × List (Except SegError SegAttempt)
  | [], refreshCount => (refreshCount, [])
  | (i, firstResult) :: rest, refreshCount =>
      if is_forbidden_result firstResult then
        let mRefreshed := refreshOracle (refreshCount + 1)
        let retry := download_segment ctx mRefreshed (some i)
        let next := forbidden_burst_go ctx refreshOracle rest (refreshCount + 1)
        (next.1, retry :: next.2)
      else
        let next := forbidden_burst_go ctx refreshOracle rest refreshCount
        (next.1, firstResult :: next.2)

/-- Run the burst execution of Downloader._download_stream for the given
segment indices: all first attempts under the initial manifest `m0`, then the
serialized Forbidden recoveries. -/
def forbidden_burst_run (ctx : SegCtx) (m0 : ManifestState)
    (refreshOracle : Nat → ManifestState) (indices : List Nat) :
    Nat × List (Except SegError SegAttempt) :=
  forbidden_burst_go ctx refreshOracle
    (indices.map (fun i => (i, download_segment ctx m0 (some i)))) 0

/-- Accumulated observable state of one Downloader._download_stream run:
the stream.downloaded_segments list and the total number of HTTP requests. -/
structure StreamRunState where
  recorded : List String
  requests : Nat
  deriving Repr, DecidableEq

/-- Sequential processing of a list of segment numbers by
Downloader._download_segment, accumulating recorded paths and request counts
and stopping at the first exception.  This models the task-pool execution of
Downloader._download_stream (lines 342-377) in submission order; when no task
raises, the recorded multiset and the request count are the same under every
completion order. -/
def download_stream_go (ctx : SegCtx) (m : ManifestState) :
    List (Option Nat) → StreamRunState → Except SegError StreamRunState
  | [], st => .ok st
  | n :: rest, st =>
      match download_segment ctx m n with
      | .ok r =>
          download_stream_go ctx m rest
            ⟨st.recorded ++ r.recorded.toList, st.requests + r.requests⟩
      | .error e => .error e

/-- The segment numbers processed by Downloader._download_stream for an
inclusive range: the init segment first (line 347), then
range(start, end + 1) (line 349). -/
def stream_segment_numbers (range : Nat × Nat) : List (Option Nat) :=
  none :: (List.range' range.1 (range.2 + 1 - range.1)).map some

/-- Embeds Downloader._download_stream (src/aebn_dl/downloader.py lines 342-377)
as a sequential run over the init segment and the inclusive segment range. -/
def download_stream_sequential (ctx : SegCtx) (m : ManifestState) (range : Nat × Nat) :
    Except SegError StreamRunState :=
  download_stream_go ctx m (stream_segment_numbers range) ⟨[], 0⟩

/-- The segment range observed by computations running after a
Downloader stream fetch: `segment_range` is computed once in
Downloader._download_streams (src/aebn_dl/downloader.py lines 312-321) and is
never reassigned anywhere afterwards — in particular the tolerated last-404
branch of _download_segment (lines 400-403) only logs — so the range is
observed unchanged. -/
def segment_range_after_fetch (range : Nat × Nat) : Nat × Nat :=
  range

/-- The response-acquisition loop of the legacy Movie._download_segment
(src/aebn_dl/movie.py lines 488-498): `while response is None and tries < max_tries`,
where a transport exception recreates the session, refreshes the manifest and
increments `tries`.  `net i` is the outcome of the i-th _send_request call
(`none` models a raised exception).  Returns the first response obtained, or
`none` when the loop exits with no response. -/
def movie_get_response (net : Nat → Option HttpResponse) (maxTries : Nat) (tries : Nat) :
    Option HttpResponse :=
  if tries < maxTries then
    match net tries with
    | some r => some r
    | none => movie_get_response net maxTries (tries + 1)
  else none
termination_by maxTries - tries
decreasing_by omega

/-- Embeds the legacy Movie._download_segment (src/aebn_dl/movie.py lines
472-519), which mutates self.end_segment.  Returns the segment bytes handed
back to the caller (None in the tolerated last-404 case) together with the
value of self.end_segment after the call.  Disk persistence and the
downloaded_segments bookkeeping are as in the source; the returned pair
carries the data the claim is about. -/
def movie_download_segment (streamType streamId movieWorkDir : String)
    (totalSegments : Nat) (endSegment : Int)
    (diskHas : String → Bool) (diskRead : String → List Nat)
    (net : Nat → Option HttpResponse)
    (segmentNumber : Option Nat) (overwrite : Bool) (maxTries : Nat) :
    Except String (Option (List Nat) × Int) :=
  let segName := segment_file_name streamType streamId segmentNumber
  let segPath := movieWorkDir ++ "/" ++ segName ++ ".mp4"
  if diskHas segPath && !overwrite then
    .ok (some (diskRead segPath), endSegment)
  else
    match movie_get_response net maxTries 0 with
    | some response =>
        if response.ok then
          .ok (some response.content, endSegment)
        else if response.status == 404 && segmentNumber == some totalSegments then
          .ok (none, endSegment - 1)
        else
          .error (segName ++ " Download error! Response Status : " ++ toString response.status)
    | none => .error (segName ++ " Download error! Failed to get a response")

/-- Characters of the file-name component of a path (the part after the last
slash): scan the characters, resetting the accumulated component at each
slash. -/
def file_name_chars_go : List Char → List Char → List Char
  | [], acc => acc.reverse
  | c :: rest, acc =>
      if c = '/' then file_name_chars_go rest []
      else file_name_chars_go rest (c :: acc)

/-- The file-name component of a path as a character list. -/
def path_file_name_chars (path : String) : List Char :=
  file_name_chars_go path.toList []

/-- A file name with a trailing ".mp4" extension removed. -/
def strip_mp4_ext (cs : List Char) : List Char :=
  if cs.reverse.take 4 = ['4', 'p', 'm', '.'] then (cs.reverse.drop 4).reverse else cs

/-- The trailing run of decimal digits of a character list. -/
def trailing_digits (cs : List Char) : List Char :=
  (cs.reverse.takeWhile Char.isDigit).reverse

/-- Numeric value of a list of decimal digit characters. -/
def digits_to_nat (cs : List Char) : Nat :=
  cs.foldl (fun acc c => acc * 10 + (c.toNat - 48)) 0

/-- Modelled from the spec: utils.concat_segments, the assembler called by
Downloader._concat_stream (src/aebn_dl/downloader.py line 186), is not
present under src/ (only its caller and the natural_sort_key helper are).
Numeric segment index extracted from a segment file name (spec section 4.5),
per the segment URL convention `{type}_{stream_id}_{index}.mp4` of section 6:
the trailing digit run of the file name without its extension.  Returns none
when the name carries no trailing digits. -/
def extract_segment_index (path : String) : Option Nat :=
  let ds := trailing_digits (strip_mp4_ext (path_file_name_chars path))
  if ds.isEmpty then none else some (digits_to_nat ds)

/-- Modelled from the spec: recognizer for the initialization segment's path,
per the segment URL convention of spec section 6 — the init file name is
`{type}i_{stream_id}.mp4` with a one-character media type, so its second
character is the letter i. -/
def is_init_segment_path (path : String) : Bool :=
  match path_file_name_chars path with
  | _ :: c :: _ => c == 'i'
  | _ => false

/-- Modelled from the spec: the ordering key of the assembly rule of spec
section 4.5 — the initialization segment always first (key 0), every data
segment after it by ascending numeric index (key index + 1). -/
def assembly_key (path : String) : Nat :=
  if is_init_segment_path path then 0
  else
    match extract_segment_index path with
    | some n => n + 1
    | none => 0

/-- Assembly ordering relation: compare segment paths by their assembly key. -/
def assemblyKeyLe (a b : String) : Prop :=
  assembly_key a ≤ assembly_key b

instance : DecidableRel assemblyKeyLe :=
  fun a b => inferInstanceAs (Decidable (assembly_key a ≤ assembly_key b))

instance : IsTotal String assemblyKeyLe :=
  ⟨fun a b => Nat.le_total (assembly_key a) (assembly_key b)⟩

instance : IsTrans String assemblyKeyLe :=
  ⟨fun _ _ _ h1 h2 => Nat.le_trans h1 h2⟩

/-- Strict version of the assembly ordering, used to state that the assembled
order is init-first and strictly ascending by index. -/
def assemblyKeyLt (a b : String) : Prop :=
  assembly_key a < assembly_key b

instance : IsAntisymm String assemblyKeyLt :=
  ⟨fun _ _ h1 h2 => absurd (Nat.lt_trans h1 h2) (Nat.lt_irrefl _)⟩

/-- Modelled from the spec: the ordering step of utils.concat_segments per
spec section 4.5 — order downloaded_segment_paths with the initialization
segment first and the remaining paths by ascending numeric segment index. -/
def order_segments (paths : List String) : List String :=
  List.insertionSort assemblyKeyLe paths

/-- Modelled from the spec: utils.concat_segments / the Stream Assembler of
spec section 4.5 — stream-copy each ordered file's bytes, in order, into the
output.  `content` maps an on-disk path to its bytes. -/
def assemble_segments (content : String → List Nat) (paths : List String) : List Nat :=
  (order_segments paths).foldl (fun acc p => acc ++ content p) []

/-- C3: for every manifest template with duration and timescale attributes and
every total duration, the computed segment duration is template.duration /
template.timescale and the computed segment count is the ceiling of
total_duration / segment_duration; in particular a duration of 3600.4 seconds
with template.duration = 10 and timescale = 1 gives segment duration 10 and
361 segments. -/
theorem segment_count_formula (dur d ts : ℚ) :
    segment_duration_calc ⟨d, ts⟩ = d / ts ∧
    total_number_of_data_segments_calc dur ⟨d, ts⟩ = spec_total_segments dur d ts ∧
    segment_duration_calc ⟨10, 1⟩ = 10 ∧
    total_number_of_data_segments_calc ((36004 : ℚ) / 10) ⟨10, 1⟩ = 361 := by
  refine ⟨rfl, rfl, by norm_num [segment_duration_calc], ?_⟩
  show (⌈(36004 : ℚ) / 10 / ((10 : ℚ) / 1)⌉ : ℤ) = 361
  rw [Int.ceil_eq_iff]
  norm_num

/-- C2: when a segment request is actually issued (the file is not being
skipped from disk) and the server answers 404, the download raises no error
and records no path exactly when the index equals the manifest's total
segment count; a 404 at any other index (or for the init segment) raises the
RuntimeError that aborts the task. -/
theorem last_segment_404_tolerated (ctx : SegCtx) (m : ManifestState) (sn : Option Nat)
    (hmiss : ¬(ctx.diskHas (segment_disk_path ctx sn) = true ∧ ctx.overwrite = false))
    (h404 : (ctx.net (segment_request_url ctx m sn)).status = 404) :
    (sn = some m.totalSegments →
      download_segment ctx m sn = .ok ⟨1, none, none⟩) ∧
    (sn ≠ some m.totalSegments →
      download_segment ctx m sn = .error (.runtimeError 404)) := by
  have hok : (ctx.net (segment_request_url ctx m sn)).ok = false := by
    simp [HttpResponse.ok, h404]
  constructor
  · intro hsn
    subst hsn
    simp [download_segment, hmiss, hok, h404]
  · intro hsn
    simp [download_segment, hmiss, hok, h404, hsn]

/-- Witness for C2 at a concrete input: a 404 at the last index is tolerated,
a 404 one index earlier raises. -/
theorem last_segment_404_tolerated_witness :
    (¬((fun _ => false : String → Bool) "w/v_1_3.mp4" = true ∧ false = false)) ∧
    download_segment ⟨"v", "1", "w", false, fun _ => false, fun _ => ⟨404, []⟩⟩
        ⟨"b", 3⟩ (some 3) = .ok ⟨1, none, none⟩ ∧
    download_segment ⟨"v", "1", "w", false, fun _ => false, fun _ => ⟨404, []⟩⟩
        ⟨"b", 3⟩ (some 2) = .error (.runtimeError 404) := by
  refine ⟨by simp, ?_, ?_⟩
  · exact (last_segment_404_tolerated ⟨"v", "1", "w", false, fun _ => false, fun _ => ⟨404, []⟩⟩
      ⟨"b", 3⟩ (some 3) (by simp) rfl).1 rfl
  · exact (last_segment_404_tolerated ⟨"v", "1", "w", false, fun _ => false, fun _ => ⟨404, []⟩⟩
      ⟨"b", 3⟩ (some 2) (by simp) rfl).2 (by decide)

/-- C8: a segment task whose first download raises Forbidden refreshes the
manifest exactly once and retries the segment exactly once; the 403 condition
escapes the task iff the retried download also raises Forbidden, and a task
ending in an error aborts the whole stream fetch. -/
theorem forbidden_refresh_retry_once (ctx : SegCtx) (mBefore mAfter : ManifestState) (i : Nat)
    (hfb : download_segment ctx mBefore (some i) = .error .forbidden) :
    (download_task ctx mBefore mAfter i).refreshes = 1 ∧
    (download_task ctx mBefore mAfter i).attempts = 2 ∧
    (download_task ctx mBefore mAfter i).result = download_segment ctx mAfter (some i) ∧
    (is_forbidden_result (download_task ctx mBefore mAfter i).result = true ↔
      download_segment ctx mAfter (some i) = .error .forbidden) ∧
    (download_segment ctx mAfter (some i) = .error .forbidden →
      ∀ runs : List TaskRun, download_task ctx mBefore mAfter i ∈ runs →
        stream_fetch_aborted runs = true) := by
  have htask : download_task ctx mBefore mAfter i =
      ⟨download_segment ctx mAfter (some i), 1, 2⟩ := by
    unfold download_task
    rw [hfb]
  refine ⟨by rw [htask], by rw [htask], by rw [htask], ?_, ?_⟩
  · rw [htask]
    constructor
    · intro h
      cases hretry : download_segment ctx mAfter (some i) with
      | ok r => rw [hretry] at h; simp [is_forbidden_result] at h
      | error e =>
          cases e with
          | forbidden => rfl
          | runtimeError s => rw [hretry] at h; simp [is_forbidden_result] at h
    · intro h
      rw [h]
      rfl
  · intro h2 runs hmem
    unfold stream_fetch_aborted
    rw [List.any_eq_true]
    refine ⟨download_task ctx mBefore mAfter i, hmem, ?_⟩
    rw [htask, h2]
    rfl

/-- Witness for C8 at a concrete input: the first attempt is a 403, the retry
under the refreshed manifest succeeds with one refresh and two attempts. -/
theorem forbidden_refresh_retry_once_witness :
    download_segment
        ⟨"v", "1", "w", false, fun _ => false,
          fun url => if url = "b0/v_1_0.mp4d" then ⟨403, []⟩ else ⟨200, [7]⟩⟩
        ⟨"b0", 9⟩ (some 0) = .error .forbidden ∧
    (download_task
        ⟨"v", "1", "w", false, fun _ => false,
          fun url => if url = "b0/v_1_0.mp4d" then ⟨403, []⟩ else ⟨200, [7]⟩⟩
        ⟨"b0", 9⟩ ⟨"b1", 9⟩ 0).refreshes = 1 ∧
    (download_task
        ⟨"v", "1", "w", false, fun _ => false,
          fun url => if url = "b0/v_1_0.mp4d" then ⟨403, []⟩ else ⟨200, [7]⟩⟩
        ⟨"b0", 9⟩ ⟨"b1", 9⟩ 0).attempts = 2 := by
  refine ⟨by decide, ?_, ?_⟩
  · exact (forbidden_refresh_retry_once
      ⟨"v", "1", "w", false, fun _ => false,
        fun url => if url = "b0/v_1_0.mp4d" then ⟨403, []⟩ else ⟨200, [7]⟩⟩
      ⟨"b0", 9⟩ ⟨"b1", 9⟩ 0 (by decide)).1
  · exact (forbidden_refresh_retry_once
      ⟨"v", "1", "w", false, fun _ => false,
        fun url => if url = "b0/v_1_0.mp4d" then ⟨403, []⟩ else ⟨200, [7]⟩⟩
      ⟨"b0", 9⟩ ⟨"b1", 9⟩ 0 (by decide)).2.1

/-- The serialized recovery pass performs one manifest refresh per
first-attempt-Forbidden task, whatever the oracles and the task order. -/
theorem forbidden_burst_go_refresh_count (ctx : SegCtx) (refreshOracle : Nat → ManifestState)
    (pairs : List (Nat × Except SegError SegAttempt)) (c : Nat) :
    (forbidden_burst_go ctx refreshOracle pairs c).1 =
      c + pairs.countP (fun p => is_forbidden_result p.2) := by
  induction pairs generalizing c with
  | nil => simp [forbidden_burst_go]
  | cons hd tl ih =>
      cases hfb : is_forbidden_result hd.2 with
      | true =>
          simp only [forbidden_burst_go, hfb, if_true]
          rw [ih]
          rw [List.countP_cons]
          simp [hfb]
          omega
      | false =>
          simp only [forbidden_burst_go, hfb, Bool.false_eq_true, if_false]
          rw [ih]
          rw [List.countP_cons]
          simp [hfb]

/-- C1 corrected: in a burst execution of Downloader._download_stream the
manifest_lock serializes the refreshes but does not collapse them — every
task whose first attempt raised Forbidden performs its own
manifest.process_manifest call, so a burst of N concurrent 403s produces
exactly N refreshes, one per failing task, not one for the whole burst. -/
theorem burst_refresh_once_per_forbidden_task (ctx : SegCtx) (m0 : ManifestState)
    (refreshOracle : Nat → ManifestState) (indices : List Nat) :
    (forbidden_burst_run ctx m0 refreshOracle indices).1 =
      indices.countP (fun i => is_forbidden_result (download_segment ctx m0 (some i))) := by
  unfold forbidden_burst_run
  rw [forbidden_burst_go_refresh_count, List.countP_map]
  simp only [Nat.zero_add]
  rfl

/-- Counterexample for C1 as stated: a burst of two segment tasks that both
receive 403 under the initial manifest triggers two manifest refreshes, not
one. -/
theorem burst_single_refresh_counterexample :
    download_segment
        ⟨"v", "1", "w", false, fun _ => false,
          fun url => if url = "b0/v_1_0.mp4d" ∨ url = "b0/v_1_1.mp4d"
            then ⟨403, []⟩ else ⟨200, []⟩⟩
        ⟨"b0", 9⟩ (some 0) = .error .forbidden ∧
    download_segment
        ⟨"v", "1", "w", false, fun _ => false,
          fun url => if url = "b0/v_1_0.mp4d" ∨ url = "b0/v_1_1.mp4d"
            then ⟨403, []⟩ else ⟨200, []⟩⟩
        ⟨"b0", 9⟩ (some 1) = .error .forbidden ∧
    (forbidden_burst_run
        ⟨"v", "1", "w", false, fun _ => false,
          fun url => if url = "b0/v_1_0.mp4d" ∨ url = "b0/v_1_1.mp4d"
            then ⟨403, []⟩ else ⟨200, []⟩⟩
        ⟨"b0", 9⟩ (fun _ => ⟨"b1", 9⟩) [0, 1]).1 = 2 ∧
    (forbidden_burst_run
        ⟨"v", "1", "w", false, fun _ => false,
          fun url => if url = "b0/v_1_0.mp4d" ∨ url = "b0/v_1_1.mp4d"
            then ⟨403, []⟩ else ⟨200, []⟩⟩
        ⟨"b0", 9⟩ (fun _ => ⟨"b1", 9⟩) [0, 1]).1 ≠ 1 := by
  refine ⟨by decide, by decide, by decide, by decide⟩

/-- If every underlying request attempt fails, the retry loop performs exactly
maxRetries - attempt further attempts from failure count `attempt` and then
gives up. -/
theorem custom_request_aux_all_fail (oracle : Nat → Option HttpResponse) (m : Nat)
    (hall : ∀ i, oracle i = none) :
    ∀ n attempt, m - attempt = n → attempt < m →
      custom_request_aux oracle m attempt = (none, m - attempt, m - attempt - 1) := by
  intro n
  induction n with
  | zero => intro attempt hn hlt; omega
  | succ k ih =>
      intro attempt hn hlt
      unfold custom_request_aux
      rw [hall attempt]
      by_cases hstop : attempt + 1 ≥ m
      · have hm : m = attempt + 1 := by omega
        rw [if_pos hstop]
        subst hm
        simp
      · rw [if_neg hstop]
        rw [ih (attempt + 1) (by omega) (by omega)]
        simp only [Prod.mk.injEq]
        refine ⟨trivial, by omega, by omega⟩

/-- If the attempts with index below `k` fail and attempt `k` succeeds, the
retry loop started at failure count `attempt ≤ k` returns that response after
exactly k - attempt + 1 further attempts. -/
theorem custom_request_aux_success (oracle : Nat → Option HttpResponse) (m k : Nat)
    (r : HttpResponse) :
    ∀ n attempt, k - attempt = n → attempt ≤ k → k < m →
      (∀ i, i < k → oracle i = none) → oracle k = some r →
      custom_request_aux oracle m attempt = (some r, k - attempt + 1, k - attempt) := by
  intro n
  induction n with
  | zero =>
      intro attempt hn hle _ _ hk
      have ha : attempt = k := by omega
      subst ha
      unfold custom_request_aux
      rw [hk]
      simp
  | succ j ih =>
      intro attempt hn hle hlt hfail hk
      have hfa : oracle attempt = none := hfail attempt (by omega)
      unfold custom_request_aux
      rw [hfa]
      have hstop : ¬ attempt + 1 ≥ m := by omega
      rw [if_neg hstop]
      rw [ih (attempt + 1) (by omega) (by omega) hlt hfail hk]
      simp only [Prod.mk.injEq]
      refine ⟨trivial, by omega, by omega⟩

/-- C10: the session wrapper's transport retries are bounded.  If the attempts
before index k all raise and attempt k succeeds, its response is returned
after exactly k + 1 underlying attempts (none after the success); if every
attempt raises a transport error, exactly maxRetries attempts are made, with
a backoff sleep between each pair of consecutive attempts (maxRetries - 1
sleeps), and the loop ends by raising NetworkError (result none). -/
theorem custom_request_bounded_retries (oracle : Nat → Option HttpResponse) (m : Nat)
    (hm : 1 ≤ m) :
    (∀ k r, k < m → (∀ i, i < k → oracle i = none) → oracle k = some r →
      custom_request oracle m = (some r, k + 1, k)) ∧
    ((∀ i, oracle i = none) → custom_request oracle m = (none, m, m - 1)) := by
  constructor
  · intro k r hk hfail hsucc
    unfold custom_request
    rw [custom_request_aux_success oracle m k r k 0 rfl (Nat.zero_le k) hk hfail hsucc]
    simp
  · intro hall
    unfold custom_request
    rw [custom_request_aux_all_fail oracle m hall m 0 rfl (by omega)]
    simp

/-- Witness for C10 at maxRetries = 3: three failing attempts, two backoff
sleeps, then NetworkError; and a first-attempt success returns at once. -/
theorem custom_request_bounded_retries_witness :
    (1 ≤ 3) ∧
    custom_request (fun _ => none) 3 = (none, 3, 2) ∧
    custom_request (fun _ => some ⟨200, [1]⟩) 3 = (some ⟨200, [1]⟩, 1, 0) := by
  refine ⟨by decide, ?_, ?_⟩
  · exact (custom_request_bounded_retries (fun _ => none) 3 (by decide)).2 (fun _ => rfl)
  · exact (custom_request_bounded_retries (fun _ => some ⟨200, [1]⟩) 3 (by decide)).1
      0 ⟨200, [1]⟩ (by decide) (fun i hi => absurd hi (Nat.not_lt_zero i)) rfl

/-- On a height-ascending list, searching the reversed list for the first
entry with height at most h finds an entry of maximal height at most h
whenever one exists. -/
theorem find_first_le_reversed (h : Int) :
    ∀ l : List (String × Int), l.Pairwise heightLe →
      ∀ q ∈ l, q.2 ≤ h →
        ∃ p, l.reverse.find? (fun x => decide (x.2 ≤ h)) = some p ∧ p ∈ l ∧ p.2 ≤ h ∧
          ∀ r ∈ l, r.2 ≤ h → r.2 ≤ p.2 := by
  intro l
  induction l using List.reverseRecOn with
  | nil => intro _ q hq; exact absurd hq (List.not_mem_nil q)
  | append_singleton as a ih =>
      intro hsort q hq hqle
      rw [List.pairwise_append] at hsort
      obtain ⟨hsas, _, hbridge⟩ := hsort
      rw [List.reverse_append, List.reverse_singleton, List.singleton_append]
      by_cases ha : a.2 ≤ h
      · refine ⟨a, ?_, by simp, ha, ?_⟩
        · rw [List.find?_cons_of_pos]
          simp [ha]
        · intro r hr _
          rcases List.mem_append.1 hr with hr | hr
          · exact hbridge r hr a (List.mem_singleton_self a)
          · rw [List.mem_singleton.1 hr]
      · have hq' : q ∈ as := by
          rcases List.mem_append.1 hq with hq | hq
          · exact hq
          · rw [List.mem_singleton.1 hq] at hqle; exact absurd hqle ha
        obtain ⟨p, hfind, hmem, hple, hmax⟩ := ih hsas q hq' hqle
        refine ⟨p, ?_, List.mem_append_left _ hmem, hple, ?_⟩
        · rw [List.find?_cons_of_neg]
          · exact hfind
          · simp [ha]
        · intro r hr hrle
          rcases List.mem_append.1 hr with hr | hr
          · exact hmax r hr hrle
          · rw [List.mem_singleton.1 hr] at hrle; exact absurd hrle ha

/-- C4: selection under the exact(h) policy on the sorted ladder built from
the parsed representations: an exact height match is returned when present;
otherwise, without force_resolution, the representation with the greatest
height at most h is returned (and selection fails when no such height
exists); with force_resolution set, a missing exact match fails with the
resolution-unavailable RuntimeError.  Hypotheses: the policy is exact(h)
(h nonzero) and stream ids are non-empty strings (XML id attributes). -/
theorem video_selection_exact_policy (raw : List (String × Int)) (h : Int) (force : Bool)
    (hh : h ≠ 0)
    (hid : ∀ p ∈ raw, p.1 ≠ "") :
    ((∃ p ∈ raw, p.2 = h) →
      ∃ p ∈ raw, p.2 = h ∧
        select_video_stream (parse_and_sort_video_streams raw) (some h) force = .ok p) ∧
    ((¬ ∃ p ∈ raw, p.2 = h) → force = false →
      ((∃ p ∈ raw, p.2 ≤ h) →
        ∃ p ∈ raw, p.2 ≤ h ∧ (∀ q ∈ raw, q.2 ≤ h → q.2 ≤ p.2) ∧
          select_video_stream (parse_and_sort_video_streams raw) (some h) force = .ok p) ∧
      ((¬ ∃ p ∈ raw, p.2 ≤ h) →
        select_video_stream (parse_and_sort_video_streams raw) (some h) force =
          .error .typeError)) ∧
    ((¬ ∃ p ∈ raw, p.2 = h) → force = true →
      select_video_stream (parse_and_sort_video_streams raw) (some h) force =
        .error .resolutionNotFound) := by
  have hperm : (parse_and_sort_video_streams raw).Perm raw :=
    List.perm_insertionSort heightLe raw
  have hmem : ∀ p, p ∈ parse_and_sort_video_streams raw ↔ p ∈ raw :=
    fun p => hperm.mem_iff
  have hsorted : (parse_and_sort_video_streams raw).Pairwise heightLe :=
    List.sorted_insertionSort heightLe raw
  refine ⟨?_, ?_, ?_⟩
  · -- exact height present
    intro hex
    obtain ⟨q, hqraw, hqh⟩ := hex
    have hq : q ∈ parse_and_sort_video_streams raw := (hmem q).2 hqraw
    have hfs : ((parse_and_sort_video_streams raw).find? (fun p => p.2 == h)).isSome := by
      rw [List.find?_isSome]
      exact ⟨q, hq, by simp [hqh]⟩
    obtain ⟨q0, hq0⟩ := Option.isSome_iff_exists.1 hfs
    have hq0mem : q0 ∈ raw := (hmem q0).1 (List.mem_of_find?_eq_some hq0)
    have hq0h : q0.2 = h := by
      have := List.find?_some hq0
      simpa using this
    have hq0id : q0.1 ≠ "" := hid q0 hq0mem
    obtain ⟨p, hfind, hpmem, hple, hmax⟩ :=
      find_first_le_reversed h (parse_and_sort_video_streams raw) hsorted q hq (le_of_eq hqh)
    have hph : p.2 = h := le_antisymm hple (hqh ▸ hmax q hq (le_of_eq hqh))
    refine ⟨p, (hmem p).1 hpmem, hph, ?_⟩
    simp only [select_video_stream]
    rw [if_neg hh, hq0]
    have hguard : ((Option.map Prod.fst (some q0) == none ||
        Option.map Prod.fst (some q0) == some "") && force) = false := by
      simp [hq0id]
    rw [hguard]
    simp only [Bool.false_eq_true, if_false]
    rw [hfind]
  · -- no exact match, force not set
    intro hnex hforce
    have hfn : (parse_and_sort_video_streams raw).find? (fun p => p.2 == h) = none := by
      rw [List.find?_eq_none]
      intro p hp
      simp only [beq_iff_eq]
      exact fun hcontra => hnex ⟨p, (hmem p).1 hp, hcontra⟩
    constructor
    · intro hle
      obtain ⟨q, hqraw, hqle⟩ := hle
      obtain ⟨p, hfind, hpmem, hple, hmax⟩ :=
        find_first_le_reversed h (parse_and_sort_video_streams raw) hsorted q
          ((hmem q).2 hqraw) hqle
      refine ⟨p, (hmem p).1 hpmem, hple,
        fun r hr hrle => hmax r ((hmem r).2 hr) hrle, ?_⟩
      simp only [select_video_stream]
      rw [if_neg hh, hfn, hforce]
      simp only [Bool.and_false, Bool.false_eq_true, if_false]
      rw [hfind]
    · intro hnle
      simp only [select_video_stream]
      rw [if_neg hh, hfn, hforce]
      simp only [Bool.and_false, Bool.false_eq_true, if_false]
      have hfind : (parse_and_sort_video_streams raw).reverse.find?
          (fun x => decide (x.2 ≤ h)) = none := by
        rw [List.find?_eq_none]
        intro p hp
        simp only [decide_eq_true_eq]
        exact fun hcontra => hnle ⟨p, (hmem p).1 (List.mem_reverse.1 hp), hcontra⟩
      rw [hfind]
  · -- no exact match, force set
    intro hnex hforce
    have hfn : (parse_and_sort_video_streams raw).find? (fun p => p.2 == h) = none := by
      rw [List.find?_eq_none]
      intro p hp
      simp only [beq_iff_eq]
      exact fun hcontra => hnex ⟨p, (hmem p).1 hp, hcontra⟩
    simp only [select_video_stream]
    rw [if_neg hh, hfn, hforce]
    simp

/-- Witness for C4 at a concrete ladder [(a, 720), (b, 1080)]: an exact
request for 720 returns the 720p representation. -/
theorem video_selection_exact_policy_witness :
    ((720 : Int) ≠ 0 ∧ (∀ p ∈ [("a", (720 : Int)), ("b", 1080)], p.1 ≠ "")) ∧
    (∃ p ∈ [("a", (720 : Int)), ("b", 1080)], p.2 = 720 ∧
      select_video_stream (parse_and_sort_video_streams [("a", 720), ("b", 1080)])
        (some 720) false = .ok p) := by
  refine ⟨⟨by decide, by decide⟩, ?_⟩
  exact (video_selection_exact_policy [("a", 720), ("b", 1080)] 720 false
    (by decide) (by decide)).1 ⟨("a", 720), by decide, rfl⟩

/-- The audio candidate loop returns the first candidate whose probe passes,
with two downloads per probed candidate added to the running count. -/
theorem find_best_good_audio_go_first_valid (base : String) (total : Nat)
    (net : String → List Nat) (isValidMedia : List Nat → Bool) :
    ∀ (pre : List (String × Int)) (p : String × Int) (post : List (String × Int)) (c : Nat),
      (∀ q ∈ pre, audio_probe base total net isValidMedia q.1 = false) →
      audio_probe base total net isValidMedia p.1 = true →
      find_best_good_audio_go base total net isValidMedia (pre ++ p :: post) c =
        .ok (p.1, c + 2 * pre.length + 2) := by
  intro pre
  induction pre with
  | nil =>
      intro p post c _ hp
      simp [find_best_good_audio_go, hp]
  | cons hd tl ih =>
      intro p post c hpre hp
      have hhd : audio_probe base total net isValidMedia hd.1 = false :=
        hpre hd (List.mem_cons_self hd tl)
      simp only [List.cons_append, find_best_good_audio_go, hhd, Bool.false_eq_true, if_false]
      rw [List.append_eq]
      rw [ih p post (c + 2) (fun q hq => hpre q (List.mem_cons_of_mem hd hq)) hp]
      simp only [Except.ok.injEq, Prod.mk.injEq, List.length_cons]
      refine ⟨trivial, by omega⟩

/-- The audio candidate loop fails with the RuntimeError when every candidate
fails the probe. -/
theorem find_best_good_audio_go_all_fail (base : String) (total : Nat)
    (net : String → List Nat) (isValidMedia : List Nat → Bool) :
    ∀ (l : List (String × Int)) (c : Nat),
      (∀ q ∈ l, audio_probe base total net isValidMedia q.1 = false) →
      find_best_good_audio_go base total net isValidMedia l c =
        .error "No valid audio stream found" := by
  intro l
  induction l with
  | nil => intro c _; rfl
  | cons hd tl ih =>
      intro c hall
      have hhd : audio_probe base total net isValidMedia hd.1 = false :=
        hall hd (List.mem_cons_self hd tl)
      simp only [find_best_good_audio_go, hhd, Bool.false_eq_true, if_false]
      exact ih (c + 2) (fun q hq => hall q (List.mem_cons_of_mem hd hq))

/-- C5: audio selection iterates the candidates in descending
associated-video-height order (the reverse of the height-ascending sorted
ladder), probes each candidate with exactly two downloads (its init segment
and the data segment at index total/2), returns the first candidate whose
probe passes — having issued 2 downloads per rejected candidate before it —
and raises the no-valid-audio RuntimeError when every candidate fails. -/
theorem audio_stream_selection (base : String) (total : Nat) (net : String → List Nat)
    (isValidMedia : List Nat → Bool) (raw : List (String × Int)) :
    ((parse_and_sort_video_streams raw).reverse.Pairwise (fun a b => b.2 ≤ a.2)) ∧
    (∀ (pre : List (String × Int)) (p : String × Int) (post : List (String × Int)),
      (parse_and_sort_video_streams raw).reverse = pre ++ p :: post →
      (∀ q ∈ pre, audio_probe base total net isValidMedia q.1 = false) →
      audio_probe base total net isValidMedia p.1 = true →
      find_best_good_audio_stream base total net isValidMedia
          (parse_and_sort_video_streams raw) = .ok (p.1, 2 * pre.length + 2)) ∧
    ((∀ q ∈ parse_and_sort_video_streams raw,
        audio_probe base total net isValidMedia q.1 = false) →
      find_best_good_audio_stream base total net isValidMedia
          (parse_and_sort_video_streams raw) = .error "No valid audio stream found") := by
  refine ⟨?_, ?_, ?_⟩
  · rw [List.pairwise_reverse]
    exact List.sorted_insertionSort heightLe raw
  · intro pre p post hsplit hpre hp
    unfold find_best_good_audio_stream
    rw [hsplit]
    have := find_best_good_audio_go_first_valid base total net isValidMedia pre p post 0
      hpre hp
    rw [this]
    simp
  · intro hall
    unfold find_best_good_audio_stream
    exact find_best_good_audio_go_all_fail base total net isValidMedia
      (parse_and_sort_video_streams raw).reverse 0
      (fun q hq => hall q (List.mem_reverse.1 hq))

/-- Witness for C5 at the claim's concrete scenario: three candidates in
descending order, the first two fail the probe and the third passes; the
third is returned after exactly 2 x 2 probe downloads for the rejected pair
plus its own 2. -/
theorem audio_stream_selection_witness :
    (audio_probe "b" 10
        (fun url => if url = audio_init_segment_url "b" "c3" ∨
            url = audio_data_segment_url "b" "c3" 5 then [1] else [0])
        (fun bs => bs == [1, 1]) "c1" = false) ∧
    (audio_probe "b" 10
        (fun url => if url = audio_init_segment_url "b" "c3" ∨
            url = audio_data_segment_url "b" "c3" 5 then [1] else [0])
        (fun bs => bs == [1, 1]) "c2" = false) ∧
    (audio_probe "b" 10
        (fun url => if url = audio_init_segment_url "b" "c3" ∨
            url = audio_data_segment_url "b" "c3" 5 then [1] else [0])
        (fun bs => bs == [1, 1]) "c3" = true) ∧
    find_best_good_audio_stream "b" 10
        (fun url => if url = audio_init_segment_url "b" "c3" ∨
            url = audio_data_segment_url "b" "c3" 5 then [1] else [0])
        (fun bs => bs == [1, 1])
        (parse_and_sort_video_streams [("c3", 400), ("c2", 720), ("c1", 1080)]) =
      .ok ("c3", 2 * 2 + 2) := by
  refine ⟨by decide, by decide, by decide, ?_⟩
  have happ := (audio_stream_selection "b" 10
    (fun url => if url = audio_init_segment_url "b" "c3" ∨
        url = audio_data_segment_url "b" "c3" 5 then [1] else [0])
    (fun bs => bs == [1, 1]) [("c3", 400), ("c2", 720), ("c1", 1080)]).2.1
    [("c1", 1080), ("c2", 720)] ("c3", 400) []
    (by decide) (by decide) (by decide)
  exact happ

/-- The assembly ordering is a permutation of its input. -/
theorem order_segments_perm (l : List String) : (order_segments l).Perm l :=
  List.perm_insertionSort assemblyKeyLe l

/-- The assembly ordering sorts by the assembly key. -/
theorem order_segments_sorted (l : List String) :
    (order_segments l).Pairwise assemblyKeyLe :=
  List.sorted_insertionSort assemblyKeyLe l

/-- With pairwise-distinct assembly keys the assembled order is strictly
increasing in the key: the initialization segment (key 0) first, data
segments after it in strictly ascending numeric index. -/
theorem order_segments_sorted_strict (l : List String)
    (hk : l.Pairwise (fun a b => assembly_key a ≠ assembly_key b)) :
    (order_segments l).Pairwise assemblyKeyLt := by
  have hks : (order_segments l).Pairwise (fun a b => assembly_key a ≠ assembly_key b) :=
    ((order_segments_perm l).pairwise_iff (fun hab => Ne.symm hab)).2 hk
  have hle := order_segments_sorted l
  exact (hle.and hks).imp (fun hab => lt_of_le_of_ne hab.1 hab.2)

/-- Two permutations of the same path set with distinct assembly keys are
ordered identically by the assembly rule. -/
theorem order_segments_eq_of_perm (l₁ l₂ : List String) (hperm : l₁.Perm l₂)
    (hk : l₁.Pairwise (fun a b => assembly_key a ≠ assembly_key b)) :
    order_segments l₁ = order_segments l₂ := by
  have hk₂ : l₂.Pairwise (fun a b => assembly_key a ≠ assembly_key b) :=
    (hperm.pairwise_iff (fun hab => Ne.symm hab)).1 hk
  exact List.eq_of_perm_of_sorted
    ((order_segments_perm l₁).trans (hperm.trans (order_segments_perm l₂).symm))
    (order_segments_sorted_strict l₁ hk)
    (order_segments_sorted_strict l₂ hk₂)

/-- C6: assembly concatenates the files with the initialization segment first
and the remaining files in strictly ascending numeric index (strictly
increasing assembly key), and the assembled bytes are invariant under any
permutation of the input order of downloaded_segment_paths. -/
theorem assembly_order_invariant (content : String → List Nat) (l₁ l₂ : List String)
    (hperm : l₁.Perm l₂)
    (hk : l₁.Pairwise (fun a b => assembly_key a ≠ assembly_key b)) :
    assemble_segments content l₁ = assemble_segments content l₂ ∧
    (order_segments l₁).Pairwise assemblyKeyLt := by
  constructor
  · unfold assemble_segments
    rw [order_segments_eq_of_perm l₁ l₂ hperm hk]
  · exact order_segments_sorted_strict l₁ hk

/-- Witness for C6 at the claim's concrete example: paths for indices
[2, 10, 1] plus the init segment assemble as [init, 1, 2, 10] — numeric, not
lexical, order — and a shuffled input yields the same assembled bytes. -/
theorem assembly_order_invariant_witness :
    (["w/v_9_2.mp4", "w/v_9_10.mp4", "w/v_9_1.mp4", "w/vi_9.mp4"].Perm
        ["w/v_9_1.mp4", "w/vi_9.mp4", "w/v_9_10.mp4", "w/v_9_2.mp4"] ∧
      ["w/v_9_2.mp4", "w/v_9_10.mp4", "w/v_9_1.mp4", "w/vi_9.mp4"].Pairwise
        (fun a b => assembly_key a ≠ assembly_key b)) ∧
    order_segments ["w/v_9_2.mp4", "w/v_9_10.mp4", "w/v_9_1.mp4", "w/vi_9.mp4"] =
      ["w/vi_9.mp4", "w/v_9_1.mp4", "w/v_9_2.mp4", "w/v_9_10.mp4"] ∧
    (assemble_segments (fun p : String => p.toList.map Char.toNat)
        ["w/v_9_2.mp4", "w/v_9_10.mp4", "w/v_9_1.mp4", "w/vi_9.mp4"] =
      assemble_segments (fun p : String => p.toList.map Char.toNat)
        ["w/v_9_1.mp4", "w/vi_9.mp4", "w/v_9_10.mp4", "w/v_9_2.mp4"] ∧
    (order_segments ["w/v_9_2.mp4", "w/v_9_10.mp4", "w/v_9_1.mp4", "w/vi_9.mp4"]).Pairwise
        assemblyKeyLt) := by
  refine ⟨⟨by decide, by decide⟩, by decide, ?_⟩
  exact assembly_order_invariant (fun p : String => p.toList.map Char.toNat)
    ["w/v_9_2.mp4", "w/v_9_10.mp4", "w/v_9_1.mp4", "w/vi_9.mp4"]
    ["w/v_9_1.mp4", "w/vi_9.mp4", "w/v_9_10.mp4", "w/v_9_2.mp4"]
    (by decide) (by decide)

/-- When every processed segment file is already on disk and overwrite is off,
the sequential stream run issues no request and records exactly the on-disk
path of every processed segment, in order. -/
theorem download_stream_go_all_on_disk (ctx : SegCtx) (m : ManifestState)
    (hov : ctx.overwrite = false) :
    ∀ (segs : List (Option Nat)) (st : StreamRunState),
      (∀ sn ∈ segs, ctx.diskHas (segment_disk_path ctx sn) = true) →
      download_stream_go ctx m segs st =
        .ok ⟨st.recorded ++ segs.map (segment_disk_path ctx), st.requests⟩ := by
  intro segs
  induction segs with
  | nil => intro st _; simp [download_stream_go]
  | cons sn rest ih =>
      intro st hdisk
      have hsn : ctx.diskHas (segment_disk_path ctx sn) = true :=
        hdisk sn (List.mem_cons_self sn rest)
      have hskip : download_segment ctx m sn =
          .ok ⟨0, some (segment_disk_path ctx sn), none⟩ := by
        unfold download_segment
        simp [hsn, hov]
      simp only [download_stream_go, hskip, Option.toList_some]
      rw [ih _ (fun q hq => hdisk q (List.mem_cons_of_mem sn hq))]
      simp

/-- C7: re-running a stream fetch over a working directory that already holds
every target segment file (the init segment and each index of the inclusive
range) performs zero network requests, records exactly the existing on-disk
paths, and assembling the recorded paths yields bytes identical to assembling
the paths recorded by any previous run of the same segment set (any
permutation with distinct assembly keys). -/
theorem idempotent_resume (ctx : SegCtx) (m : ManifestState) (range : Nat × Nat)
    (content : String → List Nat)
    (hov : ctx.overwrite = false)
    (hdisk : ∀ sn ∈ stream_segment_numbers range,
      ctx.diskHas (segment_disk_path ctx sn) = true) :
    download_stream_sequential ctx m range =
      .ok ⟨(stream_segment_numbers range).map (segment_disk_path ctx), 0⟩ ∧
    (∀ prior : List String,
      prior.Perm ((stream_segment_numbers range).map (segment_disk_path ctx)) →
      prior.Pairwise (fun a b => assembly_key a ≠ assembly_key b) →
      assemble_segments content prior =
        assemble_segments content
          ((stream_segment_numbers range).map (segment_disk_path ctx))) := by
  constructor
  · unfold download_stream_sequential
    rw [download_stream_go_all_on_disk ctx m hov (stream_segment_numbers range) ⟨[], 0⟩ hdisk]
    simp
  · intro prior hperm hk
    unfold assemble_segments
    rw [order_segments_eq_of_perm prior _ hperm hk]

/-- Witness for C7 at a concrete input: range 0..2 with everything on disk —
zero requests, the four on-disk paths recorded in canonical order. -/
theorem idempotent_resume_witness :
    ((false : Bool) = false ∧
      (∀ sn ∈ stream_segment_numbers (0, 2),
        (⟨"v", "1", "w", false, fun _ => true, fun _ => ⟨200, []⟩⟩ : SegCtx).diskHas
          (segment_disk_path ⟨"v", "1", "w", false, fun _ => true, fun _ => ⟨200, []⟩⟩ sn) =
            true)) ∧
    download_stream_sequential ⟨"v", "1", "w", false, fun _ => true, fun _ => ⟨200, []⟩⟩
        ⟨"b", 5⟩ (0, 2) =
      .ok ⟨["w/vi_1.mp4", "w/v_1_0.mp4", "w/v_1_1.mp4", "w/v_1_2.mp4"], 0⟩ := by
  refine ⟨⟨rfl, by decide⟩, ?_⟩
  have hrun := (idempotent_resume ⟨"v", "1", "w", false, fun _ => true, fun _ => ⟨200, []⟩⟩
    ⟨"b", 5⟩ (0, 2) (fun _ => []) rfl (by decide)).1
  rw [hrun]
  rfl

/-- Counterexample for C9 as stated: a Downloader fetch over range 0..3 with
total_segments = 3 in which the last index answers 404 completes with the
404 tolerated (the segment is skipped, no path recorded), yet the segment
range observed afterwards is still (0, 3) — the end boundary is not
decremented to 2. -/
theorem effective_end_counterexample :
    download_stream_sequential
        ⟨"v", "1", "w", false, fun _ => false,
          fun url => if url = "b/v_1_3.mp4d" then ⟨404, []⟩ else ⟨200, []⟩⟩
        ⟨"b", 3⟩ (0, 3) =
      .ok ⟨["w/vi_1.mp4", "w/v_1_0.mp4", "w/v_1_1.mp4", "w/v_1_2.mp4"], 5⟩ ∧
    download_segment
        ⟨"v", "1", "w", false, fun _ => false,
          fun url => if url = "b/v_1_3.mp4d" then ⟨404, []⟩ else ⟨200, []⟩⟩
        ⟨"b", 3⟩ (some 3) = .ok ⟨1, none, none⟩ ∧
    segment_range_after_fetch (0, 3) = (0, 3) ∧
    segment_range_after_fetch (0, 3) ≠ (0, 3 - 1) := by
  refine ⟨by decide, by decide, rfl, by decide⟩

/-- C9 corrected: only the legacy Movie._download_segment notes the effective
end as one less than requested — on a tolerated 404 at exactly the last
computed index it returns with self.end_segment decremented by one, which
later range computations read.  The current Downloader treats the same
condition as skip-only: the download reports success with nothing recorded
and the segment range is observed unchanged afterwards (no end-boundary state
exists to decrement). -/
theorem effective_end_amended
    (streamType streamId movieWorkDir : String) (total : Nat) (endSeg : Int)
    (diskHas : String → Bool) (diskRead : String → List Nat)
    (net : Nat → Option HttpResponse) (overwrite : Bool) (maxTries : Nat) (r : HttpResponse)
    (ctx : SegCtx) (m : ManifestState) (range : Nat × Nat)
    (hmiss : ¬(diskHas (movieWorkDir ++ "/" ++
        segment_file_name streamType streamId (some total) ++ ".mp4") = true ∧
      overwrite = false))
    (hnet : net 0 = some r) (hst : r.status = 404) (hmt : 0 < maxTries)
    (hmiss2 : ¬(ctx.diskHas (segment_disk_path ctx (some m.totalSegments)) = true ∧
      ctx.overwrite = false))
    (h404 : (ctx.net (segment_request_url ctx m (some m.totalSegments))).status = 404) :
    movie_download_segment streamType streamId movieWorkDir total endSeg diskHas diskRead
        net (some total) overwrite maxTries = .ok (none, endSeg - 1) ∧
    download_segment ctx m (some m.totalSegments) = .ok ⟨1, none, none⟩ ∧
    segment_range_after_fetch range = range := by
  refine ⟨?_, ?_, rfl⟩
  · have hresp : movie_get_response net maxTries 0 = some r := by
      unfold movie_get_response
      rw [if_pos hmt, hnet]
    have hok : r.ok = false := by
      simp [HttpResponse.ok, hst]
    unfold movie_download_segment
    simp [hmiss, hresp, hok, hst]
  · have hok2 : (ctx.net (segment_request_url ctx m (some m.totalSegments))).ok = false := by
      simp [HttpResponse.ok, h404]
    unfold download_segment
    simp [hmiss2, hok2, h404]

/-- Witness for the amended C9 at concrete inputs: the legacy path returns
end_segment 2 when 3 was requested; the Downloader path returns
success-with-no-record and the range (0, 3) unchanged. -/
theorem effective_end_amended_witness :
    movie_download_segment "a" "1" "w" 3 3 (fun _ => false) (fun _ => [])
        (fun _ => some ⟨404, []⟩) (some 3) false 2 = .ok (none, 2) ∧
    download_segment
        ⟨"v", "1", "w", false, fun _ => false, fun _ => ⟨404, []⟩⟩
        ⟨"b", 3⟩ (some 3) = .ok ⟨1, none, none⟩ ∧
    segment_range_after_fetch (0, 3) = (0, 3) := by
  exact effective_end_amended "a" "1" "w" 3 3 (fun _ => false) (fun _ => [])
    (fun _ => some ⟨404, []⟩) false 2 ⟨404, []⟩
    ⟨"v", "1", "w", false, fun _ => false, fun _ => ⟨404, []⟩⟩
    ⟨"b", 3⟩ (0, 3)
    (by simp) rfl rfl (by decide) (by simp) rfl

end AebnDl
